import Mathlib

/-!
Shallow embedding of the CDP support agent (src/app.py): the crawler
(scrape_documentation), the disk cache (load_documentation), the relevance
selector (find_relevant_documents) and the answer composer (answer_question).
External effects — HTTP fetches, the Groq completion endpoint and the file
system — are modelled as explicit oracle parameters; a value of type
Except Unit String models one completion call, with the error case standing
for a raised exception.  Python string primitives (strip, split, lower,
slicing, int) are re-implemented over character lists by structural
recursion so that every definition evaluates inside the kernel.
-/

/-- Containment of one character list inside another, used to model the
Python substring test. -/
def charsInfixOf (pat : List Char) : List Char → Bool
  | [] => pat.isEmpty
  | c :: rest => pat.isPrefixOf (c :: rest) || charsInfixOf pat rest

/-- Python substring containment, the expression pat in s. -/
def strContains (s pat : String) : Bool := charsInfixOf pat.data s.data

/-- Python slicing from the start, the expression s[:n]: the first n
characters. -/
def strTake (s : String) (n : Nat) : String := String.mk (s.data.take n)

/-- Python slicing s[n:]. -/
def strDrop (s : String) (n : Nat) : String := String.mk (s.data.drop n)

/-- Python s.startswith(pat). -/
def strStartsWith (s pat : String) : Bool := pat.data.isPrefixOf s.data

/-- Python s.lower() (ASCII, which covers the strings of the program). -/
def pyLower (s : String) : String := String.mk (s.data.map Char.toLower)

/-- Python s.upper() (ASCII, which covers the strings of the program). -/
def pyUpper (s : String) : String := String.mk (s.data.map Char.toUpper)

/-- Python s.capitalize(): first character upper-cased, the rest
lower-cased. -/
def pyCapitalize (s : String) : String :=
  match (pyLower s).data with
  | [] => ""
  | c :: r => String.mk (c.toUpper :: r)

/-- Leading and trailing whitespace removed, Python s.strip(). -/
def trimChars (l : List Char) : List Char :=
  ((l.dropWhile Char.isWhitespace).reverse.dropWhile Char.isWhitespace).reverse

/-- Python s.strip(). -/
def pyStrip (s : String) : String := String.mk (trimChars s.data)

/-- Splitting a character list on a nonempty separator, fuel-indexed so the
recursion is structural; the fuel never runs out when it starts at the
length of the list. -/
def splitCharsAux (sep : List Char) : Nat → List Char → List (List Char)
  | 0, l => [l]
  | _ + 1, [] => [[]]
  | fuel + 1, c :: rest =>
    if sep ≠ [] ∧ sep.isPrefixOf (c :: rest) then
      [] :: splitCharsAux sep fuel ((c :: rest).drop sep.length)
    else
      match splitCharsAux sep fuel rest with
      | [] => [[c]]
      | h :: t => (c :: h) :: t

/-- Python s.split(sep) for a nonempty separator. -/
def pySplitOn (s sep : String) : List String :=
  (splitCharsAux sep.data s.data.length s.data).map String.mk

/-- Python int(tok) on an already stripped token: an optional sign followed
by digits; none models the ValueError raised on anything else. -/
def pyNat? (s : String) : Option Nat :=
  if s.data.isEmpty then none
  else
    s.data.foldl (fun acc c =>
      match acc with
      | none => none
      | some n => if c.isDigit then some (n * 10 + (c.toNat - 48)) else none) (some 0)

/-- Python int(tok) over the integers. -/
def pyInt? (s : String) : Option Int :=
  if strStartsWith s "-" then (pyNat? (strDrop s 1)).map (fun n => -(n : Int))
  else if strStartsWith s "+" then (pyNat? (strDrop s 1)).map (fun n => (n : Int))
  else (pyNat? s).map (fun n => (n : Int))

/-- Python sep.join(parts). -/
def pyJoin (sep : String) : List String → String
  | [] => ""
  | [s] => s
  | s :: rest => s ++ sep ++ pyJoin sep rest

/-- A scraped documentation page as stored in the per-platform cache
(lines 322-327 of app.py); the synthetic flag marks the placeholder built at
lines 380-386. -/
structure Document where
  title : String
  url : String
  content : String
  cdp : String
  synthetic : Bool := false
  deriving DecidableEq, Repr

/-- The four platforms and their seed documentation URLs (self.cdps,
lines 28-33). -/
def cdps : List (String × String) :=
  [("segment", "https://segment.com/docs/?ref=nav"),
   ("mparticle", "https://docs.mparticle.com/"),
   ("lytics", "https://docs.lytics.com/"),
   ("zeotap", "https://docs.zeotap.com/home/en-us/")]

/-- The platform-identification loop shared by answer_question (lines 78-82)
and find_relevant_documents (lines 360-364): the first platform name that is
a substring of the lowercased query. -/
def identifyCdp (query : String) : Option String :=
  (cdps.find? (fun p => strContains (pyLower query) (pyLower p.1))).map (fun p => p.1)

/-- Resolution of the cdp parameter of find_relevant_documents: the given
one, or the one identified from the query (lines 359-364). -/
def resolveCdp (query : String) (cdp0 : Option String) : Option String :=
  match cdp0 with
  | some c => some c
  | none => identifyCdp query

/-- Candidate documents for ranking (lines 366-373): the identified
platform's cached list, or the first five documents of every platform when
none is identified. -/
def docsToSearchOf (db : List (String × List Document)) (query : String)
    (cdp0 : Option String) : List Document :=
  match resolveCdp query cdp0 with
  | some c => (db.lookup c).getD []
  | none => (db.map (fun p => p.2.take 5)).flatten

/-- The placeholder document created when the identified platform has no
cached pages (lines 380-386). -/
def syntheticDoc (c : String) : Document :=
  { title := pyCapitalize c ++ " Documentation"
    url := (cdps.lookup c).getD ""
    content := "This is a placeholder for " ++ c ++
      " documentation. The actual content could not be retrieved."
    cdp := c
    synthetic := true }

/-- One candidate entry of the ranking prompt (lines 394-395): title, URL
and the first 250 characters of the content. -/
def docPromptText (d : Document) : String :=
  "Title: " ++ d.title ++ "\nURL: " ++ d.url ++ "\nContent: " ++ strTake d.content 250

/-- Map a parser over tokens, failing when any token fails. -/
def optionMapAll (f : String → Option Int) : List String → Option (List Int)
  | [] => some []
  | t :: ts =>
    match f t, optionMapAll f ts with
    | some i, some is => some (i :: is)
    | _, _ => none

/-- Parsing of the completion reply as comma-separated integers (line 424);
none models the ValueError path taken when some token is not an integer. -/
def parseIndices (s : String) : Option (List Int) :=
  optionMapAll (fun t => pyInt? (pyStrip t)) (pySplitOn s ",")

/-- The ranking step of find_relevant_documents (lines 391-434), with the
completion call as an oracle whose error case models a raised exception. -/
def rankWithGroq (docsToSearch : List Document) (oracle : Except Unit String) :
    List Document :=
  let docsLimited := docsToSearch.take 20
  let docTexts := docsLimited.map docPromptText
  if docTexts.isEmpty then []
  else
    match oracle with
    | Except.error _ => docsToSearch.take (min 3 docsToSearch.length)
    | Except.ok content =>
      match parseIndices (pyStrip content) with
      | some indices =>
          indices.filterMap (fun idx =>
            if 0 ≤ idx ∧ idx < (docsLimited.length : Int) then docsLimited[idx.toNat]?
            else none)
      | none => docsLimited.take (min 3 docsLimited.length)

/-- find_relevant_documents (lines 357-434). -/
def find_relevant_documents (db : List (String × List Document)) (query : String)
    (cdp0 : Option String) (oracle : Except Unit String) : List Document :=
  let dts := docsToSearchOf db query cdp0
  if dts.isEmpty then
    match resolveCdp query cdp0 with
    | some c => [syntheticDoc c]
    | none => []
  else rankWithGroq dts oracle

/-- Number of comma-separated tokens of a completion reply, zero when the
call failed. -/
def replyTokens : Except Unit String → Nat
  | Except.error _ => 0
  | Except.ok s => (pySplitOn (pyStrip s) ",").length

/-- Sample documents for concrete instances. -/
def docA : Document :=
  { title := "A", url := "https://segment.com/docs/a", content := "alpha", cdp := "segment" }

def docB : Document :=
  { title := "B", url := "https://segment.com/docs/b", content := "beta", cdp := "segment" }

def docC : Document :=
  { title := "C", url := "https://segment.com/docs/c", content := "gamma", cdp := "segment" }

def docD : Document :=
  { title := "D", url := "https://segment.com/docs/d", content := "delta", cdp := "segment" }

def dbOne : List (String × List Document) := [("segment", [docA])]

def dbTwo : List (String × List Document) := [("segment", [docA, docB])]

def dbFour : List (String × List Document) := [("segment", [docA, docB, docC, docD])]

theorem optionMapAll_length (f : String → Option Int) :
    ∀ (l : List String) (r : List Int), optionMapAll f l = some r → r.length = l.length := by
  intro l
  induction l with
  | nil => intro r h; simp [optionMapAll] at h; simp [← h]
  | cons t ts ih =>
    intro r h
    simp only [optionMapAll] at h
    cases hf : f t with
    | none => rw [hf] at h; exact absurd h (by simp)
    | some i =>
      rw [hf] at h
      cases hrec : optionMapAll f ts with
      | none => rw [hrec] at h; exact absurd h (by simp)
      | some is =>
        rw [hrec] at h
        simp at h
        subst h
        simp [ih is hrec]

theorem rankWithGroq_error (dts : List Document) (h : dts ≠ []) :
    rankWithGroq dts (Except.error ()) = dts.take 3 := by
  unfold rankWithGroq
  have hne : (dts.take 20).map docPromptText ≠ [] := by
    simp [List.map_eq_nil_iff, List.take_eq_nil_iff, h]
  simp only [List.isEmpty_iff]
  rw [if_neg hne]
  have : min (min 3 dts.length) dts.length = min 3 dts.length := by
    rw [min_assoc, min_self]
  exact List.take_eq_take.mpr this

/-- C1: when the completion call raises an exception, find_relevant_documents
returns exactly min(3, number of candidates) documents, and they are the
first candidates of the list in their original order. -/
theorem C1_fallback_on_exception (db : List (String × List Document))
    (query : String) (cdp0 : Option String)
    (h : docsToSearchOf db query cdp0 ≠ []) :
    find_relevant_documents db query cdp0 (Except.error ()) =
      (docsToSearchOf db query cdp0).take 3 ∧
    (find_relevant_documents db query cdp0 (Except.error ())).length =
      min 3 (docsToSearchOf db query cdp0).length := by
  have hr : find_relevant_documents db query cdp0 (Except.error ()) =
      rankWithGroq (docsToSearchOf db query cdp0) (Except.error ()) := by
    unfold find_relevant_documents
    simp only [List.isEmpty_iff]
    rw [if_neg h]
  rw [hr, rankWithGroq_error _ h]
  exact ⟨rfl, by rw [List.length_take]⟩

/-- C1 witness: a single-document candidate list with a failing call yields
that document alone. -/
theorem C1_fallback_on_exception_witness :
    docsToSearchOf dbOne "q" (some "segment") ≠ [] ∧
    find_relevant_documents dbOne "q" (some "segment") (Except.error ()) =
      (docsToSearchOf dbOne "q" (some "segment")).take 3 ∧
    (find_relevant_documents dbOne "q" (some "segment") (Except.error ())).length =
      min 3 (docsToSearchOf dbOne "q" (some "segment")).length :=
  ⟨by decide, C1_fallback_on_exception dbOne "q" (some "segment") (by decide)⟩

/-- C2 counterexample: the reply "5" parses as integers but the index 5 is
out of range for the single candidate, so the selector returns the empty
list, not the first-three fallback the claim predicts. -/
theorem C2_counterexample_out_of_range :
    find_relevant_documents dbOne "q" (some "segment") (Except.ok "5") ≠
      (docsToSearchOf dbOne "q" (some "segment")).take 3 := by decide

theorem rankWithGroq_parse_fail (dts : List Document) (h : dts ≠ []) (reply : String)
    (hp : parseIndices (pyStrip reply) = none) :
    rankWithGroq dts (Except.ok reply) = dts.take 3 := by
  unfold rankWithGroq
  have hne : (dts.take 20).map docPromptText ≠ [] := by
    simp [List.map_eq_nil_iff, List.take_eq_nil_iff, h]
  simp only [List.isEmpty_iff]
  rw [if_neg hne, hp]
  have h1 : (dts.take 20).take (min 3 (dts.take 20).length) = (dts.take 20).take 3 :=
    List.take_eq_take.mpr (by rw [min_assoc, min_self])
  rw [h1, List.take_take]
  norm_num

theorem rankWithGroq_parsed (dts : List Document) (h : dts ≠ []) (reply : String)
    (indices : List Int) (hp : parseIndices (pyStrip reply) = some indices) :
    rankWithGroq dts (Except.ok reply) =
      indices.filterMap (fun idx =>
        if 0 ≤ idx ∧ idx < ((dts.take 20).length : Int) then (dts.take 20)[idx.toNat]?
        else none) := by
  unfold rankWithGroq
  have hne : (dts.take 20).map docPromptText ≠ [] := by
    simp [List.map_eq_nil_iff, List.take_eq_nil_iff, h]
  simp only [List.isEmpty_iff]
  rw [if_neg hne, hp]

/-- C2 amended: a reply with a non-integer token triggers the fallback to the
first min(3, n) candidates in original order, but a reply that parses as
integers never does — each out-of-range index is silently dropped, so a reply
holding only out-of-range indices yields the empty list. -/
theorem C2_parse_failure_semantics (db : List (String × List Document))
    (query : String) (cdp0 : Option String) (reply : String)
    (h : docsToSearchOf db query cdp0 ≠ []) :
    (parseIndices (pyStrip reply) = none →
      find_relevant_documents db query cdp0 (Except.ok reply) =
        (docsToSearchOf db query cdp0).take 3) ∧
    (∀ indices, parseIndices (pyStrip reply) = some indices →
      (∀ i ∈ indices, ¬(0 ≤ i ∧ i < (((docsToSearchOf db query cdp0).take 20).length : Int))) →
      find_relevant_documents db query cdp0 (Except.ok reply) = []) := by
  have hr : find_relevant_documents db query cdp0 (Except.ok reply) =
      rankWithGroq (docsToSearchOf db query cdp0) (Except.ok reply) := by
    unfold find_relevant_documents
    simp only [List.isEmpty_iff]
    rw [if_neg h]
  constructor
  · intro hp
    rw [hr]
    exact rankWithGroq_parse_fail _ h reply hp
  · intro indices hp hout
    rw [hr, rankWithGroq_parsed _ h reply indices hp]
    apply List.filterMap_eq_nil_iff.mpr
    intro i hi
    rw [if_neg (hout i hi)]

/-- C2 witness: the non-integer reply "x" makes the selector fall back to
the first candidates. -/
theorem C2_parse_failure_semantics_witness :
    docsToSearchOf dbOne "q" (some "segment") ≠ [] ∧
    parseIndices (pyStrip "x") = none ∧
    find_relevant_documents dbOne "q" (some "segment") (Except.ok "x") =
      (docsToSearchOf dbOne "q" (some "segment")).take 3 :=
  ⟨by decide, by decide,
    (C2_parse_failure_semantics dbOne "q" (some "segment") "x" (by decide)).1 (by decide)⟩

/-- C3 counterexample: the reply "0,1,2,3" parses to four in-range indices
and the selector returns four documents, more than the three the claim
allows. -/
theorem C3_counterexample_four_results :
    ¬ ((find_relevant_documents dbFour "q" (some "segment") (Except.ok "0,1,2,3")).length ≤ 3) := by
  decide

theorem strTake_length_le (s : String) (n : Nat) : (strTake s n).length ≤ n := by
  have h : (strTake s n).length = (s.data.take n).length := rfl
  rw [h, List.length_take]
  exact Nat.min_le_left n s.data.length

theorem docPromptText_length (d : Document) :
    (docPromptText d).length ≤ d.title.length + d.url.length + 273 := by
  have h := strTake_length_le d.content 250
  simp only [docPromptText, String.length_append]
  have h1 : ("Title: " : String).length = 7 := rfl
  have h2 : ("\nURL: " : String).length = 6 := rfl
  have h3 : ("\nContent: " : String).length = 10 := rfl
  rw [h1, h2, h3]
  omega

theorem rankWithGroq_length_le (dts : List Document) (oracle : Except Unit String) :
    (rankWithGroq dts oracle).length ≤ max 3 (replyTokens oracle) := by
  by_cases h : dts = []
  · subst h
    have : rankWithGroq [] oracle = [] := by
      unfold rankWithGroq
      simp
    rw [this]
    simp
  · cases oracle with
    | error u =>
      cases u
      rw [rankWithGroq_error dts h]
      have h1 : (dts.take 3).length ≤ 3 := by
        rw [List.length_take]; omega
      exact le_trans h1 (le_max_left _ _)
    | ok content =>
      cases hp : parseIndices (pyStrip content) with
      | none =>
        rw [rankWithGroq_parse_fail dts h content hp]
        have h1 : (dts.take 3).length ≤ 3 := by
          rw [List.length_take]; omega
        exact le_trans h1 (le_max_left _ _)
      | some indices =>
        rw [rankWithGroq_parsed dts h content indices hp]
        have h1 : indices.length = (pySplitOn (pyStrip content) ",").length :=
          optionMapAll_length _ _ _ hp
        have h2 := List.length_filterMap_le
          (fun idx => if 0 ≤ idx ∧ idx < ((dts.take 20).length : Int)
            then (dts.take 20)[idx.toNat]? else none) indices
        have h3 : replyTokens (Except.ok content) = (pySplitOn (pyStrip content) ",").length := rfl
        rw [h3]
        omega

/-- C3 amended: the selector returns at most max(3, number of comma-separated
reply tokens) documents — at most 3 whenever the call fails, parsing fails,
or the reply holds at most three tokens, but no bound of 3 is enforced
against longer replies — and the candidate set it considers holds at most 20
documents, each contributing a prompt entry bounded by its title and URL plus
273 characters because its content is truncated to 250 characters. -/
theorem C3_result_and_candidate_bounds (db : List (String × List Document))
    (query : String) (cdp0 : Option String) (oracle : Except Unit String) :
    (find_relevant_documents db query cdp0 oracle).length ≤ max 3 (replyTokens oracle) ∧
    ((docsToSearchOf db query cdp0).take 20).length ≤ 20 ∧
    ∀ d ∈ (docsToSearchOf db query cdp0).take 20,
      (docPromptText d).length ≤ d.title.length + d.url.length + 273 := by
  refine ⟨?_, ?_, ?_⟩
  · unfold find_relevant_documents
    by_cases he : docsToSearchOf db query cdp0 = []
    · simp only [List.isEmpty_iff]
      rw [if_pos he]
      cases resolveCdp query cdp0 with
      | none => simp
      | some c =>
        have h1 : ([syntheticDoc c] : List Document).length = 1 := rfl
        rw [h1]
        omega
    · simp only [List.isEmpty_iff]
      rw [if_neg he]
      exact rankWithGroq_length_le _ _
  · rw [List.length_take]
    exact Nat.min_le_left _ _
  · intro d _
    exact docPromptText_length d

/-- C3 witness: a two-token reply keeps the result within three documents,
and a concrete candidate prompt entry obeys the truncation bound. -/
theorem C3_result_and_candidate_bounds_witness :
    (find_relevant_documents dbFour "q" (some "segment") (Except.ok "0,1")).length ≤
      max 3 (replyTokens (Except.ok "0,1")) ∧
    (docPromptText docA).length ≤ docA.title.length + docA.url.length + 273 :=
  ⟨(C3_result_and_candidate_bounds dbFour "q" (some "segment") (Except.ok "0,1")).1,
   (C3_result_and_candidate_bounds dbFour "q" (some "segment") (Except.ok "0,1")).2.2
     docA (by decide)⟩

/-- An abstracted fetched-and-parsed page: the text of the title element,
the texts of the candidate content containers (the find_all of line 304, in
document order), the body text, and the href values of its anchors (line
332).  A fetch oracle maps a URL to failure — a non-200 status, a network
exception or a parse exception — or to such a page. -/
structure Page where
  title : Option String
  contentDivs : List String
  body : Option String
  links : List String
  deriving DecidableEq, Repr

inductive FetchResult where
  | failure
  | page (p : Page)
  deriving DecidableEq, Repr

/-- Word counting, Python len(s.split()): the number of maximal
non-whitespace runs. -/
def wordCountAux : Bool → List Char → Nat
  | _, [] => 0
  | inWord, c :: rest =>
    if c.isWhitespace then wordCountAux false rest
    else (if inWord then 0 else 1) + wordCountAux true rest

def wordCount (s : String) : Nat := wordCountAux false s.data

/-- Python max(divs, key=word count): the first element of greatest word
count, none on an empty list. -/
def maxByWordCount (l : List String) : Option String :=
  l.foldl (fun acc s =>
    match acc with
    | none => some s
    | some best => if wordCount best < wordCount s then some s else some best) none

/-- Content selection (lines 303-315): among the candidate containers — or
the body when none match — the text with the greatest word count. -/
def extractContent (p : Page) : String :=
  let divs := if p.contentDivs.isEmpty then
      (match p.body with | some b => [b] | none => []) else p.contentDivs
  match maxByWordCount divs with
  | some c => c
  | none => ""

/-- urlparse(url).netloc for scheme://host/... URLs: the text after "://"
and before the first slash, question mark or hash. -/
def netlocOf (url : String) : String :=
  match pySplitOn url "://" with
  | _ :: rest :: _ =>
      (pySplitOn ((pySplitOn ((pySplitOn rest "/").headD "") "?").headD "") "#").headD ""
  | _ => ""

/-- urlparse(url).scheme, lower-cased, for scheme://... URLs. -/
def schemeOf (url : String) : String :=
  match pySplitOn url "://" with
  | s :: _ :: _ => pyLower s
  | _ => ""

/-- Link normalization (lines 335-344): a root-relative path becomes an
absolute URL on the seed's scheme and host, an http(s) link passes through,
anything else is dropped. -/
def normalizeLink (baseUrl href : String) : Option String :=
  if strStartsWith href "/" then
    some (schemeOf baseUrl ++ "://" ++ netlocOf baseUrl ++ href)
  else if strStartsWith href "http" then some href
  else none

/-- The link-discovery loop (lines 332-349): append each normalized link on
the seed's domain that is neither visited nor already queued. -/
def enqueueLinks (baseUrl : String) (visited : List String) :
    List String → List String → List String
  | frontier, [] => frontier
  | frontier, href :: rest =>
    match normalizeLink baseUrl href with
    | none => enqueueLinks baseUrl visited frontier rest
    | some next =>
      if netlocOf next = netlocOf baseUrl ∧ next ∉ visited ∧ next ∉ frontier then
        enqueueLinks baseUrl visited (frontier ++ [next]) rest
      else enqueueLinks baseUrl visited frontier rest

/-- State of the crawl loop of scrape_documentation: the collected
documents, the visited set, the FIFO frontier, the fetched-page counter,
and the trace of URLs actually fetched (one per count increment). -/
structure CrawlState where
  documents : List Document
  visited : List String
  frontier : List String
  count : Nat
  fetched : List String
  deriving DecidableEq, Repr

/-- Handling of one successfully fetched page (lines 298-349): extract the
title and content, skip the page — links included — when the content is
under 20 words, otherwise record the Document with content truncated to
8000 characters and enqueue the page's links. -/
def processPage (cdp baseUrl currentUrl : String) (p : Page) (st : CrawlState) : CrawlState :=
  let content := extractContent p
  if wordCount content < 20 then st
  else
    { st with
      documents := st.documents ++
        [{ title := p.title.getD "Untitled"
           url := currentUrl
           content := strTake content 8000
           cdp := cdp }]
      frontier := enqueueLinks baseUrl st.visited st.frontier p.links }

/-- Popping the frontier until an unvisited URL appears, matching the
pop-and-continue of lines 283-286 for iterations that do not consume the
page budget. -/
def popUnvisited (visited : List String) : List String → Option (String × List String)
  | [] => none
  | u :: rest => if u ∈ visited then popUnvisited visited rest else some (u, rest)

def maxPages : Nat := 50

/-- The bookkeeping applied to a popped URL before its fetch (lines
283-293): mark it visited, consume one unit of the page budget, record the
fetch attempt. -/
def stepState (st : CrawlState) (current : String) (rest : List String) : CrawlState :=
  { documents := st.documents
    visited := st.visited ++ [current]
    frontier := rest
    count := st.count + 1
    fetched := st.fetched ++ [current] }

/-- The crawl loop of scrape_documentation (lines 282-352), indexed by the
remaining page budget: each round pops the next unvisited URL, marks it
visited, counts the fetch, and on success processes the page. -/
def crawlLoop (cdp baseUrl : String) (fetch : String → FetchResult) :
    Nat → CrawlState → CrawlState
  | 0, st => st
  | gas + 1, st =>
    match popUnvisited st.visited st.frontier with
    | none => { st with frontier := [] }
    | some (current, rest) =>
      match fetch current with
      | FetchResult.failure => crawlLoop cdp baseUrl fetch gas (stepState st current rest)
      | FetchResult.page p =>
          crawlLoop cdp baseUrl fetch gas (processPage cdp baseUrl current p (stepState st current rest))

/-- The initial crawl state (lines 272-278): empty caches, the frontier
seeded with the base URL. -/
def initState (baseUrl : String) : CrawlState :=
  { documents := [], visited := [], frontier := [baseUrl], count := 0, fetched := [] }

/-- scrape_documentation (lines 270-355), returning the full final crawl
state. -/
def scrapeRun (cdp baseUrl : String) (fetch : String → FetchResult) : CrawlState :=
  crawlLoop cdp baseUrl fetch maxPages (initState baseUrl)

/-- scrape_documentation's return value: the collected document list. -/
def scrape_docs (cdp baseUrl : String) (fetch : String → FetchResult) : List Document :=
  (scrapeRun cdp baseUrl fetch).documents

theorem enqueueLinks_mem (b : String) (vis : List String) :
    ∀ (links frontier : List String) (u : String), u ∈ enqueueLinks b vis frontier links →
      u ∈ frontier ∨ (netlocOf u = netlocOf b ∧ u ∉ vis ∧
        ∃ href ∈ links, normalizeLink b href = some u) := by
  intro links
  induction links with
  | nil => intro frontier u h; exact Or.inl h
  | cons href rest ih =>
    intro frontier u h
    unfold enqueueLinks at h
    cases hn : normalizeLink b href with
    | none =>
      rw [hn] at h
      dsimp only at h
      rcases ih frontier u h with h1 | ⟨h1, h2, href2, h3, h4⟩
      · exact Or.inl h1
      · exact Or.inr ⟨h1, h2, href2, List.mem_cons_of_mem _ h3, h4⟩
    | some next =>
      rw [hn] at h
      dsimp only at h
      by_cases hc : netlocOf next = netlocOf b ∧ next ∉ vis ∧ next ∉ frontier
      · rw [if_pos hc] at h
        rcases ih (frontier ++ [next]) u h with h1 | ⟨h1, h2, href2, h3, h4⟩
        · rcases List.mem_append.mp h1 with h5 | h5
          · exact Or.inl h5
          · have h6 : u = next := List.mem_singleton.mp h5
            subst h6
            exact Or.inr ⟨hc.1, hc.2.1, href, List.mem_cons_self _ _, hn⟩
        · exact Or.inr ⟨h1, h2, href2, List.mem_cons_of_mem _ h3, h4⟩
      · rw [if_neg hc] at h
        rcases ih frontier u h with h1 | ⟨h1, h2, href2, h3, h4⟩
        · exact Or.inl h1
        · exact Or.inr ⟨h1, h2, href2, List.mem_cons_of_mem _ h3, h4⟩

theorem enqueueLinks_keeps (b : String) (vis : List String) :
    ∀ (links frontier : List String) (u : String), u ∈ frontier →
      u ∈ enqueueLinks b vis frontier links := by
  intro links
  induction links with
  | nil => intro frontier u h; exact h
  | cons href rest ih =>
    intro frontier u h
    unfold enqueueLinks
    cases hn : normalizeLink b href with
    | none => exact ih frontier u h
    | some next =>
      dsimp only
      by_cases hc : netlocOf next = netlocOf b ∧ next ∉ vis ∧ next ∉ frontier
      · rw [if_pos hc]
        exact ih (frontier ++ [next]) u (List.mem_append_left _ h)
      · rw [if_neg hc]
        exact ih frontier u h

theorem enqueueLinks_nodup (b : String) (vis : List String) :
    ∀ (links frontier : List String), frontier.Nodup →
      (enqueueLinks b vis frontier links).Nodup := by
  intro links
  induction links with
  | nil => intro frontier h; exact h
  | cons href rest ih =>
    intro frontier h
    unfold enqueueLinks
    cases hn : normalizeLink b href with
    | none => exact ih frontier h
    | some next =>
      dsimp only
      by_cases hc : netlocOf next = netlocOf b ∧ next ∉ vis ∧ next ∉ frontier
      · rw [if_pos hc]
        refine ih (frontier ++ [next]) ?_
        simp [List.nodup_append, h, hc.2.2]
      · rw [if_neg hc]
        exact ih frontier h

theorem enqueueLinks_noop (b : String) (vis : List String) :
    ∀ (links frontier : List String),
      (∀ href ∈ links, ∀ u, normalizeLink b href = some u →
        netlocOf u ≠ netlocOf b ∨ u ∈ vis ∨ u ∈ frontier) →
      enqueueLinks b vis frontier links = frontier := by
  intro links
  induction links with
  | nil => intro frontier _; rfl
  | cons href rest ih =>
    intro frontier hall
    unfold enqueueLinks
    cases hn : normalizeLink b href with
    | none => exact ih frontier (fun h2 hh u hu => hall h2 (List.mem_cons_of_mem _ hh) u hu)
    | some next =>
      have hnext := hall href (List.mem_cons_self _ _) next hn
      have hc : ¬(netlocOf next = netlocOf b ∧ next ∉ vis ∧ next ∉ frontier) := by
        rcases hnext with h1 | h1 | h1
        · intro hcc; exact h1 hcc.1
        · intro hcc; exact hcc.2.1 h1
        · intro hcc; exact hcc.2.2 h1
      dsimp only
      rw [if_neg hc]
      exact ih frontier (fun h2 hh u hu => hall h2 (List.mem_cons_of_mem _ hh) u hu)

theorem popUnvisited_spec (vis : List String) :
    ∀ (frontier : List String) (u : String) (rest : List String),
      popUnvisited vis frontier = some (u, rest) →
      u ∈ frontier ∧ u ∉ vis ∧ (∀ x ∈ rest, x ∈ frontier) ∧
        (frontier.Nodup → rest.Nodup ∧ u ∉ rest) := by
  intro frontier
  induction frontier with
  | nil => intro u rest h; exact absurd h (by simp [popUnvisited])
  | cons v f ih =>
    intro u rest h
    unfold popUnvisited at h
    by_cases hv : v ∈ vis
    · rw [if_pos hv] at h
      rcases ih u rest h with ⟨h1, h2, h3, h4⟩
      refine ⟨List.mem_cons_of_mem _ h1, h2, fun x hx => List.mem_cons_of_mem _ (h3 x hx), ?_⟩
      intro hnd
      exact h4 (List.Nodup.of_cons hnd)
    · rw [if_neg hv] at h
      have h1 : u = v ∧ rest = f := by
        have := h
        simp at this
        exact ⟨this.1.symm, this.2.symm⟩
      rcases h1 with ⟨hu, hrest⟩
      subst hu
      subst hrest
      refine ⟨List.mem_cons_self _ _, hv, fun x hx => List.mem_cons_of_mem _ hx, ?_⟩
      intro hnd
      rw [List.nodup_cons] at hnd
      exact ⟨hnd.2, hnd.1⟩

/-- The crawl-loop invariant: document provenance, same-domain frontier,
duplicate-free frontier and fetch trace, and counter accounting. -/
structure CrawlInv (cdp baseUrl : String) (fetch : String → FetchResult)
    (st : CrawlState) : Prop where
  docs_ok : ∀ d ∈ st.documents, d.cdp = cdp ∧ netlocOf d.url = netlocOf baseUrl ∧
    ∃ p, fetch d.url = FetchResult.page p ∧ 20 ≤ wordCount (extractContent p) ∧
      d.content = strTake (extractContent p) 8000
  frontier_domain : ∀ u ∈ st.frontier, netlocOf u = netlocOf baseUrl
  frontier_nodup : st.frontier.Nodup
  frontier_fresh : ∀ u ∈ st.frontier, u ∉ st.visited
  fetched_nodup : st.fetched.Nodup
  fetched_visited : ∀ u ∈ st.fetched, u ∈ st.visited
  fetched_count : st.fetched.length = st.count
  docs_count : st.documents.length ≤ st.count

theorem crawlLoop_zero (cdp baseUrl : String) (fetch : String → FetchResult)
    (st : CrawlState) : crawlLoop cdp baseUrl fetch 0 st = st := rfl

theorem crawlLoop_succ_none (cdp baseUrl : String) (fetch : String → FetchResult)
    (gas : Nat) (st : CrawlState) (hp : popUnvisited st.visited st.frontier = none) :
    crawlLoop cdp baseUrl fetch (gas + 1) st = { st with frontier := [] } := by
  unfold crawlLoop
  rw [hp]

theorem crawlLoop_succ_failure (cdp baseUrl : String) (fetch : String → FetchResult)
    (gas : Nat) (st : CrawlState) (current : String) (rest : List String)
    (hp : popUnvisited st.visited st.frontier = some (current, rest))
    (hf : fetch current = FetchResult.failure) :
    crawlLoop cdp baseUrl fetch (gas + 1) st =
      crawlLoop cdp baseUrl fetch gas (stepState st current rest) := by
  conv_lhs => unfold crawlLoop
  rw [hp]
  dsimp only
  rw [hf]

theorem crawlLoop_succ_page (cdp baseUrl : String) (fetch : String → FetchResult)
    (gas : Nat) (st : CrawlState) (current : String) (rest : List String) (p : Page)
    (hp : popUnvisited st.visited st.frontier = some (current, rest))
    (hf : fetch current = FetchResult.page p) :
    crawlLoop cdp baseUrl fetch (gas + 1) st =
      crawlLoop cdp baseUrl fetch gas (processPage cdp baseUrl current p (stepState st current rest)) := by
  conv_lhs => unfold crawlLoop
  rw [hp]
  dsimp only
  rw [hf]

theorem processPage_count (cdp baseUrl currentUrl : String) (p : Page) (st : CrawlState) :
    (processPage cdp baseUrl currentUrl p st).count = st.count := by
  unfold processPage
  by_cases hw : wordCount (extractContent p) < 20
  · rw [if_pos hw]
  · rw [if_neg hw]

theorem stepState_inv (cdp baseUrl : String) (fetch : String → FetchResult)
    (st : CrawlState) (current : String) (rest : List String)
    (h : CrawlInv cdp baseUrl fetch st)
    (hp : popUnvisited st.visited st.frontier = some (current, rest)) :
    CrawlInv cdp baseUrl fetch (stepState st current rest) := by
  rcases popUnvisited_spec st.visited st.frontier current rest hp with
    ⟨hcur_mem, hcur_fresh, hrest_sub, hnd⟩
  rcases hnd h.frontier_nodup with ⟨hrest_nodup, hcur_rest⟩
  refine { docs_ok := h.docs_ok,
           frontier_domain := fun u hu => h.frontier_domain u (hrest_sub u hu),
           frontier_nodup := hrest_nodup,
           frontier_fresh := ?_,
           fetched_nodup := ?_,
           fetched_visited := ?_,
           fetched_count := ?_,
           docs_count := ?_ }
  · intro u hu
    have h1 : u ∉ st.visited := h.frontier_fresh u (hrest_sub u hu)
    have h2 : u ≠ current := by
      intro he
      subst he
      exact hcur_rest hu
    show u ∉ st.visited ++ [current]
    simp [List.mem_append, h1, h2]
  · have h1 : current ∉ st.fetched := fun hc => hcur_fresh (h.fetched_visited current hc)
    show (st.fetched ++ [current]).Nodup
    simp [List.nodup_append, h.fetched_nodup, h1]
  · intro u hu
    rcases List.mem_append.mp hu with h1 | h1
    · exact List.mem_append_left _ (h.fetched_visited u h1)
    · exact List.mem_append_right _ h1
  · show (st.fetched ++ [current]).length = st.count + 1
    simp [h.fetched_count]
  · exact Nat.le_succ_of_le h.docs_count

theorem processPage_inv (cdp baseUrl current : String) (fetch : String → FetchResult)
    (p : Page) (st : CrawlState) (h : CrawlInv cdp baseUrl fetch st)
    (hcur : netlocOf current = netlocOf baseUrl)
    (hf : fetch current = FetchResult.page p)
    (hdocs : st.documents.length < st.count) :
    CrawlInv cdp baseUrl fetch (processPage cdp baseUrl current p st) := by
  unfold processPage
  by_cases hw : wordCount (extractContent p) < 20
  · rw [if_pos hw]
    exact h
  · rw [if_neg hw]
    refine { docs_ok := ?_,
             frontier_domain := ?_,
             frontier_nodup := enqueueLinks_nodup _ _ _ _ h.frontier_nodup,
             frontier_fresh := ?_,
             fetched_nodup := h.fetched_nodup,
             fetched_visited := h.fetched_visited,
             fetched_count := h.fetched_count,
             docs_count := ?_ }
    · intro d hd
      rcases List.mem_append.mp hd with h1 | h1
      · exact h.docs_ok d h1
      · rw [List.mem_singleton] at h1
        subst h1
        exact ⟨rfl, hcur, p, hf, Nat.le_of_not_lt hw, rfl⟩
    · intro u hu
      rcases enqueueLinks_mem baseUrl _ p.links _ u hu with h1 | ⟨h1, _, _⟩
      · exact h.frontier_domain u h1
      · exact h1
    · intro u hu
      rcases enqueueLinks_mem baseUrl _ p.links _ u hu with h1 | ⟨_, h1, _⟩
      · exact h.frontier_fresh u h1
      · exact h1
    · show (st.documents ++ [_]).length ≤ st.count
      simp only [List.length_append, List.length_cons, List.length_nil]
      omega

theorem crawlLoop_inv (cdp baseUrl : String) (fetch : String → FetchResult) :
    ∀ (gas : Nat) (st : CrawlState), CrawlInv cdp baseUrl fetch st →
      CrawlInv cdp baseUrl fetch (crawlLoop cdp baseUrl fetch gas st) := by
  intro gas
  induction gas with
  | zero => intro st h; exact h
  | succ g ih =>
    intro st h
    cases hp : popUnvisited st.visited st.frontier with
    | none =>
      rw [crawlLoop_succ_none cdp baseUrl fetch g st hp]
      exact { docs_ok := h.docs_ok,
              frontier_domain := by intro u hu; exact absurd hu (by simp),
              frontier_nodup := List.nodup_nil,
              frontier_fresh := by intro u hu; exact absurd hu (by simp),
              fetched_nodup := h.fetched_nodup,
              fetched_visited := h.fetched_visited,
              fetched_count := h.fetched_count,
              docs_count := h.docs_count }
    | some pr =>
      obtain ⟨current, rest⟩ := pr
      have hinv1 : CrawlInv cdp baseUrl fetch (stepState st current rest) :=
        stepState_inv cdp baseUrl fetch st current rest h hp
      have hcur_dom : netlocOf current = netlocOf baseUrl :=
        h.frontier_domain current (popUnvisited_spec st.visited st.frontier current rest hp).1
      cases hf : fetch current with
      | failure =>
        rw [crawlLoop_succ_failure cdp baseUrl fetch g st current rest hp hf]
        exact ih _ hinv1
      | page p =>
        rw [crawlLoop_succ_page cdp baseUrl fetch g st current rest p hp hf]
        refine ih _ (processPage_inv cdp baseUrl current fetch p _ hinv1 hcur_dom hf ?_)
        show st.documents.length < st.count + 1
        exact Nat.lt_succ_of_le h.docs_count

theorem crawlLoop_count_le (cdp baseUrl : String) (fetch : String → FetchResult) :
    ∀ (gas : Nat) (st : CrawlState),
      (crawlLoop cdp baseUrl fetch gas st).count ≤ st.count + gas := by
  intro gas
  induction gas with
  | zero => intro st; rw [crawlLoop_zero]; omega
  | succ g ih =>
    intro st
    cases hp : popUnvisited st.visited st.frontier with
    | none =>
      rw [crawlLoop_succ_none cdp baseUrl fetch g st hp]
      show st.count ≤ st.count + (g + 1)
      omega
    | some pr =>
      obtain ⟨current, rest⟩ := pr
      cases hf : fetch current with
      | failure =>
        rw [crawlLoop_succ_failure cdp baseUrl fetch g st current rest hp hf]
        have h1 := ih (stepState st current rest)
        have h2 : (stepState st current rest).count = st.count + 1 := rfl
        omega
      | page p =>
        rw [crawlLoop_succ_page cdp baseUrl fetch g st current rest p hp hf]
        have h1 := ih (processPage cdp baseUrl current p (stepState st current rest))
        have h2 : (processPage cdp baseUrl current p (stepState st current rest)).count =
            st.count + 1 := by
          rw [processPage_count]
          rfl
        omega

theorem crawlLoop_stops (cdp baseUrl : String) (fetch : String → FetchResult) :
    ∀ (gas : Nat) (st : CrawlState),
      (crawlLoop cdp baseUrl fetch gas st).frontier = [] ∨
      (crawlLoop cdp baseUrl fetch gas st).count = st.count + gas := by
  intro gas
  induction gas with
  | zero => intro st; right; rfl
  | succ g ih =>
    intro st
    cases hp : popUnvisited st.visited st.frontier with
    | none =>
      left
      rw [crawlLoop_succ_none cdp baseUrl fetch g st hp]
    | some pr =>
      obtain ⟨current, rest⟩ := pr
      cases hf : fetch current with
      | failure =>
        rw [crawlLoop_succ_failure cdp baseUrl fetch g st current rest hp hf]
        rcases ih (stepState st current rest) with h1 | h1
        · left; exact h1
        · right
          have h2 : (stepState st current rest).count = st.count + 1 := rfl
          omega
      | page p =>
        rw [crawlLoop_succ_page cdp baseUrl fetch g st current rest p hp hf]
        rcases ih (processPage cdp baseUrl current p (stepState st current rest)) with h1 | h1
        · left; exact h1
        · right
          have h2 : (processPage cdp baseUrl current p (stepState st current rest)).count =
              st.count + 1 := by
            rw [processPage_count]
            rfl
          omega

theorem scrapeRun_inv (cdp baseUrl : String) (fetch : String → FetchResult) :
    CrawlInv cdp baseUrl fetch (scrapeRun cdp baseUrl fetch) := by
  apply crawlLoop_inv
  exact { docs_ok := by intro d hd; exact absurd hd (by simp [initState]),
          frontier_domain := by intro u hu; rw [List.mem_singleton.mp hu],
          frontier_nodup := List.nodup_singleton _,
          frontier_fresh := by intro u _; simp [initState],
          fetched_nodup := List.nodup_nil,
          fetched_visited := by intro u hu; exact absurd hu (by simp [initState]),
          fetched_count := rfl,
          docs_count := Nat.le_refl 0 }

theorem crawlLoop_empty (cdp baseUrl : String) (fetch : String → FetchResult)
    (gas : Nat) (st : CrawlState) (h : st.frontier = []) :
    crawlLoop cdp baseUrl fetch gas st = st := by
  cases gas with
  | zero => rfl
  | succ g =>
    have hp : popUnvisited st.visited st.frontier = none := by
      rw [h]
      rfl
    rw [crawlLoop_succ_none cdp baseUrl fetch g st hp]
    cases st
    simp_all

theorem processPage_fetched (cdp baseUrl currentUrl : String) (p : Page) (st : CrawlState) :
    (processPage cdp baseUrl currentUrl p st).fetched = st.fetched := by
  unfold processPage
  by_cases hw : wordCount (extractContent p) < 20
  · rw [if_pos hw]
  · rw [if_neg hw]

theorem processPage_docs_le (cdp baseUrl currentUrl : String) (p : Page) (st : CrawlState) :
    (processPage cdp baseUrl currentUrl p st).documents.length ≤ st.documents.length + 1 := by
  unfold processPage
  by_cases hw : wordCount (extractContent p) < 20
  · rw [if_pos hw]
    omega
  · rw [if_neg hw]
    show (st.documents ++ [_]).length ≤ _
    simp

theorem processPage_frontier_noop (cdp baseUrl currentUrl : String) (p : Page)
    (st : CrawlState)
    (hcross : ∀ href ∈ p.links, ∀ u, normalizeLink baseUrl href = some u →
      netlocOf u ≠ netlocOf baseUrl ∨ u ∈ st.visited ∨ u ∈ st.frontier) :
    (processPage cdp baseUrl currentUrl p st).frontier = st.frontier := by
  unfold processPage
  by_cases hw : wordCount (extractContent p) < 20
  · rw [if_pos hw]
  · rw [if_neg hw]
    show enqueueLinks baseUrl st.visited st.frontier p.links = st.frontier
    exact enqueueLinks_noop baseUrl st.visited p.links st.frontier hcross

/-- C5: every document the crawler produces comes from a fetched page whose
extracted content has at least 20 words, and its stored content holds at
most 8000 characters — the first 8000 characters of that extracted
content. -/
theorem C5_word_threshold_and_truncation (cdp baseUrl : String)
    (fetch : String → FetchResult) :
    ∀ d ∈ scrape_docs cdp baseUrl fetch,
      d.content.length ≤ 8000 ∧
      ∃ p, fetch d.url = FetchResult.page p ∧ 20 ≤ wordCount (extractContent p) ∧
        d.content = strTake (extractContent p) 8000 := by
  intro d hd
  have hinv := scrapeRun_inv cdp baseUrl fetch
  rcases hinv.docs_ok d hd with ⟨_, _, p, hp1, hp2, hp3⟩
  refine ⟨?_, p, hp1, hp2, hp3⟩
  rw [hp3]
  exact strTake_length_le _ _

/-- Concrete crawl instances: a seed page of twenty words and no links, and
a variant whose only link is cross-domain. -/
def seedUrl : String := "https://docs.example.com/"

def words20 : String := "a b c d e f g h i j k l m n o p q r s t"

def seedPage : Page :=
  { title := some "Seed", contentDivs := [words20], body := none, links := [] }

def fetchSeed : String → FetchResult := fun u =>
  if u = seedUrl then FetchResult.page seedPage else FetchResult.failure

def docSeed : Document :=
  { title := "Seed", url := seedUrl, content := words20, cdp := "segment" }

def seedPageX : Page :=
  { title := some "Seed", contentDivs := [words20], body := none,
    links := ["https://other.com/x"] }

def fetchCross : String → FetchResult := fun u =>
  if u = seedUrl then FetchResult.page seedPageX else FetchResult.failure

/-- C5 witness: the concrete twenty-word seed page yields its document, and
the theorem applies to it. -/
theorem C5_word_threshold_and_truncation_witness :
    docSeed ∈ scrape_docs "segment" seedUrl fetchSeed ∧
    (docSeed.content.length ≤ 8000 ∧
      ∃ p, fetchSeed docSeed.url = FetchResult.page p ∧
        20 ≤ wordCount (extractContent p) ∧
        docSeed.content = strTake (extractContent p) 8000) :=
  ⟨by decide,
   C5_word_threshold_and_truncation "segment" seedUrl fetchSeed docSeed (by decide)⟩

/-- C6: the crawl loop stops with an empty frontier or a full page budget of
50, fetches at most 50 pages and returns at most 50 documents. -/
theorem C6_crawl_termination_and_bounds (cdp baseUrl : String)
    (fetch : String → FetchResult) :
    ((scrapeRun cdp baseUrl fetch).frontier = [] ∨
      (scrapeRun cdp baseUrl fetch).count = 50) ∧
    (scrapeRun cdp baseUrl fetch).fetched.length ≤ 50 ∧
    (scrape_docs cdp baseUrl fetch).length ≤ 50 := by
  have hinv := scrapeRun_inv cdp baseUrl fetch
  have h0 : scrapeRun cdp baseUrl fetch =
      crawlLoop cdp baseUrl fetch maxPages (initState baseUrl) := rfl
  have hcount := crawlLoop_count_le cdp baseUrl fetch maxPages (initState baseUrl)
  have hstop := crawlLoop_stops cdp baseUrl fetch maxPages (initState baseUrl)
  rw [← h0] at hcount hstop
  refine ⟨?_, ?_, ?_⟩
  · rcases hstop with h1 | h1
    · exact Or.inl h1
    · exact Or.inr (by simpa [initState, maxPages] using h1)
  · rw [hinv.fetched_count]
    simpa [initState, maxPages] using hcount
  · calc (scrape_docs cdp baseUrl fetch).length ≤ (scrapeRun cdp baseUrl fetch).count :=
        hinv.docs_count
      _ ≤ 50 := by simpa [initState, maxPages] using hcount

/-- C7: the crawl never fetches the same URL twice, and the link-discovery
step never enqueues a URL already visited or already queued; in particular
links whose target is visited or queued — a page linking to itself included —
leave the frontier unchanged. -/
theorem C7_no_refetch_no_requeue (cdp baseUrl : String) (fetch : String → FetchResult)
    (b : String) (vis frontier links : List String)
    (hnd : frontier.Nodup) (hfresh : ∀ u ∈ frontier, u ∉ vis) :
    (scrapeRun cdp baseUrl fetch).fetched.Nodup ∧
    (enqueueLinks b vis frontier links).Nodup ∧
    (∀ u ∈ enqueueLinks b vis frontier links, u ∉ vis) ∧
    ((∀ href ∈ links, ∀ u, normalizeLink b href = some u → u ∈ vis ∨ u ∈ frontier) →
      enqueueLinks b vis frontier links = frontier) := by
  refine ⟨(scrapeRun_inv cdp baseUrl fetch).fetched_nodup,
    enqueueLinks_nodup b vis links frontier hnd, ?_, ?_⟩
  · intro u hu
    rcases enqueueLinks_mem b vis links frontier u hu with h1 | ⟨_, h1, _⟩
    · exact hfresh u h1
    · exact h1
  · intro hall
    exact enqueueLinks_noop b vis links frontier
      (fun href hh u hu => Or.inr (hall href hh u hu))

/-- C7 witness: the concrete crawl has a duplicate-free fetch trace, and the
enqueue step at concrete state adds nothing when there is nothing to add. -/
theorem C7_no_refetch_no_requeue_witness :
    (scrapeRun "segment" seedUrl fetchSeed).fetched.Nodup ∧
    enqueueLinks "https://h.com/" ["https://h.com/a"] [] [] = [] := by
  have h := C7_no_refetch_no_requeue "segment" seedUrl fetchSeed "https://h.com/"
    ["https://h.com/a"] [] [] (by decide) (by decide)
  exact ⟨h.1, h.2.2.2 (fun href hh u hu => absurd hh (by simp))⟩

/-- C8: links are enqueued only on the seed's domain — root-relative paths
are made absolute on the seed's scheme and host, non-http links are
discarded — and a seed page holding only cross-domain links yields at most
one document and exactly one fetch, with nothing further enqueued. -/
theorem C8_same_domain_filter (b href : String) (vis frontier links : List String)
    (cdp baseUrl : String) (fetch : String → FetchResult) (p : Page)
    (hfetch : fetch baseUrl = FetchResult.page p)
    (hcross : ∀ h2 ∈ p.links, ∀ u, normalizeLink baseUrl h2 = some u →
      netlocOf u ≠ netlocOf baseUrl) :
    (∀ u ∈ enqueueLinks b vis frontier links, u ∈ frontier ∨
      (netlocOf u = netlocOf b ∧ ∃ h2 ∈ links, normalizeLink b h2 = some u)) ∧
    (strStartsWith href "/" = true →
      normalizeLink b href = some (schemeOf b ++ "://" ++ netlocOf b ++ href)) ∧
    ((strStartsWith href "/" = false ∧ strStartsWith href "http" = false) →
      normalizeLink b href = none) ∧
    (scrape_docs cdp baseUrl fetch).length ≤ 1 ∧
    (scrapeRun cdp baseUrl fetch).fetched = [baseUrl] := by
  have hp0 : popUnvisited ([] : List String) [baseUrl] = some (baseUrl, []) := by
    simp [popUnvisited]
  have hrw : scrapeRun cdp baseUrl fetch =
      crawlLoop cdp baseUrl fetch 49
        (processPage cdp baseUrl baseUrl p (stepState (initState baseUrl) baseUrl [])) := by
    have h1 : scrapeRun cdp baseUrl fetch =
        crawlLoop cdp baseUrl fetch (49 + 1) (initState baseUrl) := rfl
    rw [h1]
    exact crawlLoop_succ_page cdp baseUrl fetch 49 _ baseUrl [] p hp0 hfetch
  have hfr : (processPage cdp baseUrl baseUrl p
      (stepState (initState baseUrl) baseUrl [])).frontier = [] := by
    rw [processPage_frontier_noop cdp baseUrl baseUrl p _
      (fun h2 hh u hu => Or.inl (hcross h2 hh u hu))]
    rfl
  refine ⟨?_, ?_, ?_, ?_, ?_⟩
  · intro u hu
    rcases enqueueLinks_mem b vis links frontier u hu with h1 | ⟨h1, _, h2⟩
    · exact Or.inl h1
    · exact Or.inr ⟨h1, h2⟩
  · intro h1
    unfold normalizeLink
    rw [if_pos h1]
  · intro ⟨h1, h2⟩
    unfold normalizeLink
    rw [if_neg (by simp [h1]), if_neg (by simp [h2])]
  · show (scrapeRun cdp baseUrl fetch).documents.length ≤ 1
    rw [hrw, crawlLoop_empty _ _ _ _ _ hfr]
    calc (processPage cdp baseUrl baseUrl p
          (stepState (initState baseUrl) baseUrl [])).documents.length
        ≤ 0 + 1 := processPage_docs_le _ _ _ _ _
      _ = 1 := rfl
  · rw [hrw, crawlLoop_empty _ _ _ _ _ hfr, processPage_fetched]
    rfl

/-- C8 witness: a seed page whose only link is cross-domain yields one
document and a single fetch of the seed. -/
theorem C8_same_domain_filter_witness :
    (scrape_docs "segment" seedUrl fetchCross).length ≤ 1 ∧
    (scrapeRun "segment" seedUrl fetchCross).fetched = [seedUrl] := by
  have hcross : ∀ h2 ∈ seedPageX.links, ∀ u, normalizeLink seedUrl h2 = some u →
      netlocOf u ≠ netlocOf seedUrl := by
    intro h2 hh u hu
    have hh2 : h2 = "https://other.com/x" := by
      simpa [seedPageX] using hh
    subst hh2
    have h3 : normalizeLink seedUrl "https://other.com/x" =
        some "https://other.com/x" := by decide
    rw [h3] at hu
    have h4 : u = "https://other.com/x" := by
      simpa using hu.symm
    subst h4
    decide
  have h := C8_same_domain_filter "b" "h" [] [] [] "segment" seedUrl fetchCross
    seedPageX (by decide) hcross
  exact ⟨h.2.2.2.1, h.2.2.2.2⟩

/-- C10: every document returned by the crawler carries the platform tag it
was called with, and its URL lies on the seed's domain. -/
theorem C10_platform_tag_and_domain (cdp baseUrl : String)
    (fetch : String → FetchResult) :
    ∀ d ∈ scrape_docs cdp baseUrl fetch,
      d.cdp = cdp ∧ netlocOf d.url = netlocOf baseUrl := by
  intro d hd
  have hinv := scrapeRun_inv cdp baseUrl fetch
  exact ⟨(hinv.docs_ok d hd).1, (hinv.docs_ok d hd).2.1⟩

/-- C10 witness: the concrete crawl's document carries the requested tag and
the seed's domain. -/
theorem C10_platform_tag_and_domain_witness :
    docSeed ∈ scrape_docs "segment" seedUrl fetchSeed ∧
    docSeed.cdp = "segment" ∧ netlocOf docSeed.url = netlocOf seedUrl :=
  ⟨by decide, C10_platform_tag_and_domain "segment" seedUrl fetchSeed docSeed (by decide)⟩

/-- The two prompt shapes answer_question sends to the generation endpoint,
carrying exactly the data interpolated into the f-strings: the direct
no-documents prompt of lines 165-179 — determined by the identified platform
and the query — and the documentation-context prompt of lines 213-225. -/
inductive Prompt where
  | direct (identifiedCdp : Option String) (query : String)
  | docBased (query : String) (context : String)
  deriving DecidableEq, Repr

/-- The response dictionary of answer_question. -/
structure Answer where
  text : String
  source : String
  cdp : Option String := none
  urls : Option (List String) := none
  deriving DecidableEq, Repr

/-- The keyword fallback list of is_cdp_related (line 64). -/
def cdpKeywords : List String :=
  ["cdp", "customer data", "segment", "mparticle", "lytics", "zeotap"]

/-- is_cdp_related (lines 42-65): the classification oracle's reply checked
for "yes", with a keyword scan of the query on call failure. -/
def is_cdp_related (query : String) (oracle : Except Unit String) : Bool :=
  match oracle with
  | Except.ok reply => strContains (pyLower (pyStrip reply)) "yes"
  | Except.error _ => cdpKeywords.any (fun t => strContains (pyLower query) t)

def offTopicText : String :=
  "I\x27m a CDP support agent focused on helping with questions about Segment, mParticle, Lytics, and Zeotap. Please ask a question related to these Customer Data Platforms."

def noDocsText : String :=
  "I couldn\x27t find specific information about that in the CDP documentation. Could you please rephrase your question or provide more details?"

def errorText (e : String) : String :=
  "I encountered an error while trying to answer your question. Please try again later. Error: " ++ e

/-- The documentation context of the doc-based prompt (lines 206-209):
platform tag, title, URL and the first 1500 characters of each selected
document, joined by separators. -/
def buildContext (docs : List Document) : String :=
  pyJoin "\n\n---\n\n"
    (docs.map (fun d =>
      "CDP: " ++ pyUpper d.cdp ++ "\nTitle: " ++ d.title ++ "\nURL: " ++ d.url ++
        "\n\n" ++ strTake d.content 1500))

/-- answer_question (lines 67-248), with the topical gate, the ranking call
and the generation call as oracles; the generation oracle is keyed by the
prompt it receives. -/
def answer_question (db : List (String × List Document)) (query : String)
    (topicOracle rankOracle : Except Unit String)
    (genOracle : Prompt → Except String String) : Answer :=
  if is_cdp_related query topicOracle = false then
    { text := offTopicText, source := "off-topic" }
  else
    let identifiedCdp := identifyCdp query
    let relevantDocs := find_relevant_documents db query identifiedCdp rankOracle
    let hasSynthetic := relevantDocs.any (fun d => d.synthetic)
    if relevantDocs.isEmpty then
      { text := noDocsText, source := "no-docs" }
    else if hasSynthetic = true ∨ relevantDocs.length < 2 then
      match genOracle (Prompt.direct identifiedCdp query) with
      | Except.ok ans => { text := pyStrip ans, source := "direct-groq", cdp := identifiedCdp }
      | Except.error e => { text := errorText e, source := "error" }
    else
      match genOracle (Prompt.docBased query (buildContext relevantDocs)) with
      | Except.ok ans =>
          { text := pyStrip ans, source := "doc-based", cdp := identifiedCdp,
            urls := some (relevantDocs.map (fun d => d.url)) }
      | Except.error e => { text := errorText e, source := "error" }

/-- C4 counterexample: an on-topic query whose selector returns a single
real (non-synthetic) document takes the direct-prompt path, although the
claim allows that path only when a synthetic document is present. -/
theorem C4_counterexample_single_real_doc :
    (answer_question dbOne "segment question" (Except.ok "yes") (Except.error ())
      (fun _ => Except.ok "fine")).source = "direct-groq" ∧
    (find_relevant_documents dbOne "segment question" (identifyCdp "segment question")
      (Except.error ())).any (fun d => d.synthetic) = false ∧
    find_relevant_documents dbOne "segment question" (identifyCdp "segment question")
      (Except.error ()) ≠ [] := by decide

theorem answer_question_direct (db : List (String × List Document)) (query : String)
    (topicOracle rankOracle : Except Unit String) (gen : Prompt → Except String String)
    (hTopic : is_cdp_related query topicOracle = true)
    (hne : find_relevant_documents db query (identifyCdp query) rankOracle ≠ [])
    (hcond : (find_relevant_documents db query (identifyCdp query) rankOracle).any
        (fun d => d.synthetic) = true ∨
      (find_relevant_documents db query (identifyCdp query) rankOracle).length < 2) :
    answer_question db query topicOracle rankOracle gen =
      match gen (Prompt.direct (identifyCdp query) query) with
      | Except.ok ans =>
          { text := pyStrip ans, source := "direct-groq", cdp := identifyCdp query }
      | Except.error e => { text := errorText e, source := "error" } := by
  unfold answer_question
  rw [if_neg (by rw [hTopic]; simp)]
  dsimp only
  simp only [List.isEmpty_iff]
  rw [if_neg hne, if_pos hcond]

theorem answer_question_docBased (db : List (String × List Document)) (query : String)
    (topicOracle rankOracle : Except Unit String) (gen : Prompt → Except String String)
    (hTopic : is_cdp_related query topicOracle = true)
    (hne : find_relevant_documents db query (identifyCdp query) rankOracle ≠ [])
    (hcond : ¬((find_relevant_documents db query (identifyCdp query) rankOracle).any
        (fun d => d.synthetic) = true ∨
      (find_relevant_documents db query (identifyCdp query) rankOracle).length < 2)) :
    answer_question db query topicOracle rankOracle gen =
      match gen (Prompt.docBased query
          (buildContext (find_relevant_documents db query (identifyCdp query) rankOracle))) with
      | Except.ok ans =>
          { text := pyStrip ans, source := "doc-based", cdp := identifyCdp query,
            urls := some ((find_relevant_documents db query (identifyCdp query)
              rankOracle).map (fun d => d.url)) }
      | Except.error e => { text := errorText e, source := "error" } := by
  unfold answer_question
  rw [if_neg (by rw [hTopic]; simp)]
  dsimp only
  simp only [List.isEmpty_iff]
  rw [if_neg hne, if_neg hcond]

/-- C4 amended: for an on-topic query with a non-empty selected-document
list and a succeeding generation call, the direct-prompt path is taken
exactly when some selected document is synthetic or fewer than two documents
were selected; otherwise the composer answers doc-based, from the prompt
built by concatenating the selected documents' platform tag, title, URL and
1500-character-truncated content, and reports their URLs. -/
theorem C4_direct_path_condition (db : List (String × List Document)) (query : String)
    (topicOracle rankOracle : Except Unit String) (f : Prompt → String)
    (hTopic : is_cdp_related query topicOracle = true)
    (hne : find_relevant_documents db query (identifyCdp query) rankOracle ≠ []) :
    ((answer_question db query topicOracle rankOracle (fun pr => Except.ok (f pr))).source =
        "direct-groq" ↔
      ((find_relevant_documents db query (identifyCdp query) rankOracle).any
          (fun d => d.synthetic) = true ∨
        (find_relevant_documents db query (identifyCdp query) rankOracle).length < 2)) ∧
    (¬((find_relevant_documents db query (identifyCdp query) rankOracle).any
          (fun d => d.synthetic) = true ∨
        (find_relevant_documents db query (identifyCdp query) rankOracle).length < 2) →
      (answer_question db query topicOracle rankOracle (fun pr => Except.ok (f pr))).source =
          "doc-based" ∧
      (answer_question db query topicOracle rankOracle (fun pr => Except.ok (f pr))).text =
        pyStrip (f (Prompt.docBased query
          (buildContext (find_relevant_documents db query (identifyCdp query) rankOracle)))) ∧
      (answer_question db query topicOracle rankOracle (fun pr => Except.ok (f pr))).urls =
        some ((find_relevant_documents db query (identifyCdp query) rankOracle).map
          (fun d => d.url))) := by
  constructor
  · constructor
    · intro hsrc
      by_contra hcond
      rw [answer_question_docBased db query topicOracle rankOracle _ hTopic hne hcond] at hsrc
      dsimp only at hsrc
      exact absurd hsrc (by decide)
    · intro hcond
      rw [answer_question_direct db query topicOracle rankOracle _ hTopic hne hcond]
  · intro hcond
    rw [answer_question_docBased db query topicOracle rankOracle _ hTopic hne hcond]
    exact ⟨rfl, rfl, rfl⟩

/-- C4 witness: two real selected documents produce a doc-based answer. -/
theorem C4_direct_path_condition_witness :
    is_cdp_related "segment q" (Except.ok "yes") = true ∧
    find_relevant_documents dbTwo "segment q" (identifyCdp "segment q")
      (Except.error ()) ≠ [] ∧
    (answer_question dbTwo "segment q" (Except.ok "yes") (Except.error ())
      (fun pr => Except.ok ((fun _ => "ans") pr))).source = "doc-based" := by
  refine ⟨by decide, by decide, ?_⟩
  exact ((C4_direct_path_condition dbTwo "segment q" (Except.ok "yes") (Except.error ())
    (fun _ => "ans") (by decide) (by decide)).2 (by decide)).1

/-- The cache file path of a platform (line 255, under the constructor's
default cache directory). -/
def cacheFile (cdp : String) : String := "./cdp_cache/" ++ cdp ++ "_docs.json"

/-- Result of one load_documentation run: the per-platform document lists in
iteration order, the file system after the run, and the platforms that were
crawled during it. -/
structure LoadResult where
  docs : List (String × List Document)
  fs : String → Option (List Document)
  crawled : List String

/-- Pointwise file-system update, the json.dump of lines 265-266. -/
def fsWrite (fs : String → Option (List Document)) (k : String) (v : List Document) :
    String → Option (List Document) :=
  fun k2 => if k2 = k then some v else fs k2

/-- The per-platform loop of load_documentation (lines 250-268): read the
cache file when it exists, otherwise crawl and persist the result before
moving on. -/
def loadDocsAux (fetch : String → FetchResult) :
    List (String × String) → (String → Option (List Document)) → LoadResult
  | [], fs => { docs := [], fs := fs, crawled := [] }
  | (c, u) :: rest, fs =>
    match fs (cacheFile c) with
    | some ds =>
      let r := loadDocsAux fetch rest fs
      { docs := (c, ds) :: r.docs, fs := r.fs, crawled := r.crawled }
    | none =>
      let ds := scrape_docs c u fetch
      let r := loadDocsAux fetch rest (fsWrite fs (cacheFile c) ds)
      { docs := (c, ds) :: r.docs, fs := r.fs, crawled := c :: r.crawled }

/-- load_documentation (lines 250-268) over the four platforms. -/
def load_docs (fetch : String → FetchResult) (fs : String → Option (List Document)) :
    LoadResult :=
  loadDocsAux fetch cdps fs

/-- The list load_documentation associates to one platform entry: the cached
list when its file exists, else the crawl result. -/
def getOrScrape (fetch : String → FetchResult) (fs : String → Option (List Document))
    (p : String × String) : List Document :=
  match fs (cacheFile p.1) with
  | some ds => ds
  | none => scrape_docs p.1 p.2 fetch

theorem getOrScrape_write_ne (fetch : String → FetchResult)
    (fs : String → Option (List Document)) (k : String) (v : List Document)
    (p : String × String) (h : cacheFile p.1 ≠ k) :
    getOrScrape fetch (fsWrite fs k v) p = getOrScrape fetch fs p := by
  unfold getOrScrape fsWrite
  rw [if_neg h]

theorem loadDocsAux_fs_frame (fetch : String → FetchResult) :
    ∀ (l : List (String × String)) (fs : String → Option (List Document)) (k : String),
      k ∉ l.map (fun p => cacheFile p.1) → (loadDocsAux fetch l fs).fs k = fs k := by
  intro l
  induction l with
  | nil => intro fs k _; rfl
  | cons hd rest ih =>
    intro fs k hk
    obtain ⟨c, u⟩ := hd
    have hk1 : k ≠ cacheFile c := by
      intro he
      exact hk (by simp [he])
    have hk2 : k ∉ rest.map (fun p => cacheFile p.1) := by
      intro he
      exact hk (by simp [he])
    unfold loadDocsAux
    cases hc : fs (cacheFile c) with
    | some ds =>
      dsimp only
      exact ih fs k hk2
    | none =>
      dsimp only
      rw [ih _ k hk2]
      unfold fsWrite
      rw [if_neg hk1]

theorem loadDocsAux_docs (fetch : String → FetchResult) :
    ∀ (l : List (String × String)) (fs : String → Option (List Document)),
      (l.map (fun p => cacheFile p.1)).Nodup →
      (loadDocsAux fetch l fs).docs = l.map (fun p => (p.1, getOrScrape fetch fs p)) := by
  intro l
  induction l with
  | nil => intro fs _; rfl
  | cons hd rest ih =>
    intro fs hnd
    obtain ⟨c, u⟩ := hd
    rw [List.map_cons, List.nodup_cons] at hnd
    unfold loadDocsAux
    cases hc : fs (cacheFile c) with
    | some ds =>
      dsimp only
      rw [ih fs hnd.2, List.map_cons]
      have h1 : getOrScrape fetch fs (c, u) = ds := by
        unfold getOrScrape
        rw [hc]
      rw [h1]
    | none =>
      dsimp only
      rw [ih _ hnd.2, List.map_cons]
      have h1 : getOrScrape fetch fs (c, u) = scrape_docs c u fetch := by
        unfold getOrScrape
        rw [hc]
      rw [h1]
      have h2 : ∀ p ∈ rest, (p.1, getOrScrape fetch
          (fsWrite fs (cacheFile c) (scrape_docs c u fetch)) p) =
          (p.1, getOrScrape fetch fs p) := by
        intro p hp
        have h3 : cacheFile p.1 ≠ cacheFile c := by
          intro he
          exact hnd.1 (by rw [← he]; exact List.mem_map_of_mem _ hp)
        rw [getOrScrape_write_ne fetch fs _ _ p h3]
      rw [List.map_congr_left h2]

theorem loadDocsAux_crawled (fetch : String → FetchResult) :
    ∀ (l : List (String × String)) (fs : String → Option (List Document)),
      (l.map (fun p => cacheFile p.1)).Nodup →
      (loadDocsAux fetch l fs).crawled =
        (l.filter (fun p => (fs (cacheFile p.1)).isNone)).map (fun p => p.1) := by
  intro l
  induction l with
  | nil => intro fs _; rfl
  | cons hd rest ih =>
    intro fs hnd
    obtain ⟨c, u⟩ := hd
    rw [List.map_cons, List.nodup_cons] at hnd
    unfold loadDocsAux
    cases hc : fs (cacheFile c) with
    | some ds =>
      dsimp only
      rw [ih fs hnd.2, List.filter_cons]
      simp [hc]
    | none =>
      dsimp only
      rw [ih _ hnd.2, List.filter_cons]
      have h2 : rest.filter (fun p => ((fsWrite fs (cacheFile c) (scrape_docs c u fetch))
          (cacheFile p.1)).isNone) = rest.filter (fun p => (fs (cacheFile p.1)).isNone) := by
        apply List.filter_congr
        intro p hp
        have h3 : cacheFile p.1 ≠ cacheFile c := by
          intro he
          exact hnd.1 (by rw [← he]; exact List.mem_map_of_mem _ hp)
        unfold fsWrite
        rw [if_neg h3]
      rw [h2]
      simp [hc]

theorem loadDocsAux_fs_mem (fetch : String → FetchResult) :
    ∀ (l : List (String × String)) (fs : String → Option (List Document)),
      (l.map (fun p => cacheFile p.1)).Nodup →
      ∀ p ∈ l, (loadDocsAux fetch l fs).fs (cacheFile p.1) =
        some (getOrScrape fetch fs p) := by
  intro l
  induction l with
  | nil => intro fs _ p hp; exact absurd hp (by simp)
  | cons hd rest ih =>
    intro fs hnd p hp
    obtain ⟨c, u⟩ := hd
    rw [List.map_cons, List.nodup_cons] at hnd
    rcases List.mem_cons.mp hp with hp1 | hp1
    · subst hp1
      unfold loadDocsAux
      cases hc : fs (cacheFile c) with
      | some ds =>
        dsimp only
        rw [loadDocsAux_fs_frame fetch rest fs _ hnd.1, hc]
        unfold getOrScrape
        rw [hc]
      | none =>
        dsimp only
        rw [loadDocsAux_fs_frame fetch rest _ _ hnd.1]
        unfold fsWrite getOrScrape
        rw [if_pos rfl, hc]
    · unfold loadDocsAux
      cases hc : fs (cacheFile c) with
      | some ds =>
        dsimp only
        exact ih fs hnd.2 p hp1
      | none =>
        dsimp only
        rw [ih _ hnd.2 p hp1]
        have h3 : cacheFile p.1 ≠ cacheFile c := by
          intro he
          exact hnd.1 (by rw [← he]; exact List.mem_map_of_mem _ hp1)
        rw [getOrScrape_write_ne fetch fs _ _ p h3]

theorem lookup_map_self (g : String × String → List Document) :
    ∀ (l : List (String × String)), (l.map (fun p => p.1)).Nodup →
      ∀ p ∈ l, List.lookup p.1 (l.map (fun q => (q.1, g q))) = some (g p) := by
  intro l
  induction l with
  | nil => intro _ p hp; exact absurd hp (by simp)
  | cons hd rest ih =>
    intro hnd p hp
    rw [List.map_cons, List.nodup_cons] at hnd
    rcases List.mem_cons.mp hp with hp1 | hp1
    · subst hp1
      simp [List.lookup]
    · have h1 : p.1 ≠ hd.1 := by
        intro he
        exact hnd.1 (he ▸ List.mem_map_of_mem _ hp1)
      rw [List.map_cons]
      have h2 : (p.1 == hd.1) = false := by
        simp [h1]
      simp only [List.lookup, h2]
      exact ih hnd.2 p hp1

/-- C9: for each platform, load_documentation returns the persisted list
when the cache file exists — without crawling that platform — and otherwise
crawls, persists the result and returns it; hence a second load over the
resulting file system returns the same lists and crawls nothing. -/
theorem C9_cache_read_write_idempotent (fetch : String → FetchResult)
    (fs0 : String → Option (List Document)) :
    (∀ p ∈ cdps, ∀ ds, fs0 (cacheFile p.1) = some ds →
      List.lookup p.1 (load_docs fetch fs0).docs = some ds ∧
      p.1 ∉ (load_docs fetch fs0).crawled) ∧
    (∀ p ∈ cdps, fs0 (cacheFile p.1) = none →
      List.lookup p.1 (load_docs fetch fs0).docs = some (scrape_docs p.1 p.2 fetch) ∧
      (load_docs fetch fs0).fs (cacheFile p.1) = some (scrape_docs p.1 p.2 fetch) ∧
      p.1 ∈ (load_docs fetch fs0).crawled) ∧
    (load_docs fetch (load_docs fetch fs0).fs).docs = (load_docs fetch fs0).docs ∧
    (load_docs fetch (load_docs fetch fs0).fs).crawled = [] := by
  have hfiles : (cdps.map (fun p => cacheFile p.1)).Nodup := by decide
  have hkeys : (cdps.map (fun p => p.1)).Nodup := by decide
  have hdocs1 : (load_docs fetch fs0).docs =
      cdps.map (fun p => (p.1, getOrScrape fetch fs0 p)) :=
    loadDocsAux_docs fetch cdps fs0 hfiles
  have hcrawled1 : (load_docs fetch fs0).crawled =
      (cdps.filter (fun p => (fs0 (cacheFile p.1)).isNone)).map (fun p => p.1) :=
    loadDocsAux_crawled fetch cdps fs0 hfiles
  have hfs1 : ∀ p ∈ cdps, (load_docs fetch fs0).fs (cacheFile p.1) =
      some (getOrScrape fetch fs0 p) :=
    loadDocsAux_fs_mem fetch cdps fs0 hfiles
  refine ⟨?_, ?_, ?_, ?_⟩
  · intro p hp ds hds
    constructor
    · rw [hdocs1, lookup_map_self _ cdps hkeys p hp]
      unfold getOrScrape
      rw [hds]
    · rw [hcrawled1]
      intro hmem
      rcases List.mem_map.mp hmem with ⟨q, hq1, hq2⟩
      rcases List.mem_filter.mp hq1 with ⟨_, hq3⟩
      rw [hq2, hds] at hq3
      exact absurd hq3 (by simp)
  · intro p hp hds
    refine ⟨?_, ?_, ?_⟩
    · rw [hdocs1, lookup_map_self _ cdps hkeys p hp]
      unfold getOrScrape
      rw [hds]
    · rw [hfs1 p hp]
      unfold getOrScrape
      rw [hds]
    · rw [hcrawled1]
      apply List.mem_map_of_mem
      apply List.mem_filter.mpr
      exact ⟨hp, by rw [hds]; rfl⟩
  · have hdocs2 : (load_docs fetch (load_docs fetch fs0).fs).docs =
        cdps.map (fun p => (p.1, getOrScrape fetch (load_docs fetch fs0).fs p)) :=
      loadDocsAux_docs fetch cdps _ hfiles
    rw [hdocs2, hdocs1]
    apply List.map_congr_left
    intro p hp
    have h1 : getOrScrape fetch (load_docs fetch fs0).fs p = getOrScrape fetch fs0 p := by
      unfold getOrScrape
      rw [hfs1 p hp]
      rfl
    rw [h1]
  · have hcrawled2 : (load_docs fetch (load_docs fetch fs0).fs).crawled =
        (cdps.filter (fun p => ((load_docs fetch fs0).fs (cacheFile p.1)).isNone)).map
          (fun p => p.1) :=
      loadDocsAux_crawled fetch cdps _ hfiles
    rw [hcrawled2]
    have h1 : cdps.filter (fun p => ((load_docs fetch fs0).fs (cacheFile p.1)).isNone) = [] := by
      apply List.filter_eq_nil_iff.mpr
      intro p hp
      rw [hfs1 p hp]
      simp
    rw [h1]
    rfl

/-- C9 witness: with only the segment cache file present and a failing
fetcher, segment is read from cache and not crawled, and a second load over
the written file system crawls nothing. -/
theorem C9_cache_read_write_idempotent_witness :
    (("segment", "https://segment.com/docs/?ref=nav") ∈ cdps) ∧
    List.lookup "segment" (load_docs (fun _ => FetchResult.failure)
      (fun k => if k = cacheFile "segment" then some [docA] else none)).docs = some [docA] ∧
    "segment" ∉ (load_docs (fun _ => FetchResult.failure)
      (fun k => if k = cacheFile "segment" then some [docA] else none)).crawled ∧
    (load_docs (fun _ => FetchResult.failure)
      (load_docs (fun _ => FetchResult.failure)
        (fun k => if k = cacheFile "segment" then some [docA] else none)).fs).crawled = [] := by
  have h := C9_cache_read_write_idempotent (fun _ => FetchResult.failure)
    (fun k => if k = cacheFile "segment" then some [docA] else none)
  refine ⟨by decide, ?_, ?_, h.2.2.2⟩
  · exact (h.1 ("segment", "https://segment.com/docs/?ref=nav") (by decide) [docA]
      (by decide)).1
  · exact (h.1 ("segment", "https://segment.com/docs/?ref=nav") (by decide) [docA]
      (by decide)).2
